import Mathlib

/-!
Shallow embedding of the response-parsing core of the GSM AT library
(`src/gsm/gsm_parser.c`, `src/gsm/gsm_sms.c`).  C strings are modelled as
`List Char` (the list never contains the NUL terminator; the end of the
list plays the role of NUL).  Cursors into a C string are modelled by the
remaining suffix.  Machine integers: `int32_t` accumulation is modelled on
`Int` with an explicit wrap `i32`, `uint8_t`/`size_t` fields as `Nat` with
explicit `% 256` where the C type can wrap, and the `uint32_t` bitmask with
an explicit `% 2 ^ 32`.
-/

/-- `GSM_CHARISNUM(x)`: `x` is a decimal digit (`'0' <= x && x <= '9'`). -/
def GSM_CHARISNUM (c : Char) : Bool :=
  48 ≤ c.toNat && c.toNat ≤ 57

/-- `GSM_CHARTONUM(x)`: digit value `x - '0'`. -/
def GSM_CHARTONUM (c : Char) : Nat :=
  c.toNat - 48

/-- Two's-complement wrap to `int32_t`. -/
def i32 (x : Int) : Int :=
  (x + 2 ^ 31) % 2 ^ 32 - 2 ^ 31

/-- One conditional character skip: `if (*p == c) p++;`.  At the end of the
string `*p` is NUL, which never equals the skipped character. -/
def skipChar (c : Char) (s : List Char) : List Char :=
  match s with
  | a :: rest => if a = c then rest else a :: rest
  | [] => []

/-- `strncmp(s, lit, n) == 0` for NUL-terminated C strings modelled as lists:
compare up to `n` characters, where running off the end of a list stands for
reaching the NUL terminator. -/
def strncmpEq (s1 s2 : List Char) (n : Nat) : Bool :=
  match n, s1, s2 with
  | 0, _, _ => true
  | _ + 1, [], [] => true
  | _ + 1, [], _ :: _ => false
  | _ + 1, _ :: _, [] => false
  | m + 1, a :: as, b :: bs => a == b && strncmpEq as bs m
termination_by structural n

/-- The digit-accumulation loop of `gsmi_parse_number`:
`while (GSM_CHARISNUM(*p)) { val = val * 10 + GSM_CHARTONUM(*p); p++; }`
with `val` an `int32_t`. -/
def parseDigits : List Char → Int → Int × List Char
  | [], v => (v, [])
  | c :: cs, v =>
    if GSM_CHARISNUM c then parseDigits cs (i32 (v * 10 + (GSM_CHARTONUM c : Int)))
    else (v, c :: cs)

/-- Mathematical value of a decimal digit string continued from `acc` (the
specification-side reference value for `parseDigits`). -/
def digitsValFrom (acc : Nat) (ds : List Char) : Nat :=
  ds.foldl (fun a c => a * 10 + GSM_CHARTONUM c) acc

/-- `gsmi_parse_number`: skip at most one leading quote, one leading comma,
one leading quote, an optional minus sign; accumulate decimal digits in an
`int32_t`; skip one trailing comma.  Returns the parsed value and the new
cursor. -/
def gsmi_parse_number (s : List Char) : Int × List Char :=
  let p := skipChar '"' s
  let p := skipChar ',' p
  let p := skipChar '"' p
  let minus : Bool := decide (p.head? = some '-')
  let p := skipChar '-' p
  let r := parseDigits p 0
  let p := skipChar ',' r.2
  (if minus then i32 (-r.1) else r.1, p)

/-- The copy loop of `gsmi_parse_string`.  `cap` is the capacity left after
reserving the terminator byte (`dst_len - 1`), `i` the number of characters
copied so far, `acc` the content written to `dst` so far.  Returns the final
cursor and the content of `dst`. -/
def gsmi_parse_string_go (hasDst : Bool) (cap : Nat) (trim : Bool) :
    List Char → Nat → List Char → List Char × List Char
  | [], _, acc => ([], acc)
  | c :: rest, i, acc =>
    if c = '"' ∧ (rest.head? = some ',' ∨ rest.head? = some '\r' ∨ rest.head? = some '\n') then
      (rest, acc)
    else if hasDst then
      if i < cap then gsmi_parse_string_go hasDst cap trim rest (i + 1) (acc ++ [c])
      else if trim then gsmi_parse_string_go hasDst cap trim rest i acc
      else (c :: rest, acc)
    else gsmi_parse_string_go hasDst cap trim rest i acc

/-- `gsmi_parse_string`: skip one leading comma and one leading quote, then
copy characters into the destination (capacity `dst_len`, one byte reserved
for the NUL terminator) until a quote followed by comma/CR/LF or the end of
input; with `trim` set keep consuming the source once the destination is
full, otherwise stop.  `hasDst = false` models a NULL destination (skip and
discard).  Returns the new cursor and the written content. -/
def gsmi_parse_string (src : List Char) (hasDst : Bool) (dst_len : Nat) (trim : Bool) :
    List Char × List Char :=
  let p := skipChar ',' src
  let p := skipChar '"' p
  gsmi_parse_string_go hasDst (dst_len - 1) trim p 0 []

/-- The table scan of `gsmi_parse_memory`: find the first entry of the
device memory map whose name (`strncmp` over its full length) is a prefix of
the input; return its selector and the name's length. -/
def firstMatch : List (List Char × Nat) → List Char → Option (Nat × Nat)
  | [], _ => none
  | (name, m) :: rest, s =>
    if name.isPrefixOf s then some (m, name.length) else firstMatch rest s

/-- `gsmi_parse_memory`: skip a leading comma and quote, scan the externally
supplied `gsm_dev_mem_map` (here the parameter `table`, with
`GSM_MEM_UNKNOWN` the parameter `unknown`), take the first matching entry
and advance past its name; when nothing matches, return `unknown` after
skipping one quoted string token; finally skip one closing quote. -/
def gsmi_parse_memory (table : List (List Char × Nat)) (unknown : Nat) (src : List Char) :
    Nat × List Char :=
  let s := skipChar ',' src
  let s := skipChar '"' s
  let r :=
    match firstMatch table s with
    | some (m, sl) => (m, s.drop sl)
    | none => (unknown, s)
  let s := if r.1 = unknown then (gsmi_parse_string r.2 false 0 true).1 else r.2
  let s := skipChar '"' s
  (r.1, s)

/-- The do-while loop of `gsmi_parse_memories_string`, with explicit fuel
(the C loop can diverge only for a pathological memory table whose entry is
the empty name; the wrapper passes enough fuel for every terminating run):
parse one memory, OR `1 << mem` (as `uint32_t`) into the mask, repeat while
the cursor is neither at the end nor at a closing parenthesis. -/
def memListLoop (table : List (List Char × Nat)) (unknown : Nat) :
    Nat → List Char → Nat → Nat × List Char
  | 0, s, mask => (mask, s)
  | fuel + 1, s, mask =>
    let r := gsmi_parse_memory table unknown s
    let mask1 := mask ||| ((1 <<< r.1) % 2 ^ 32)
    match r.2 with
    | [] => (mask1, [])
    | c :: cs => if c = ')' then (mask1, c :: cs) else memListLoop table unknown fuel (c :: cs) mask1

/-- `gsmi_parse_memories_string`: skip a leading comma and an opening
parenthesis, run the parse-memory loop OR-ing bits into the `uint32_t`
bitmask, then skip one closing parenthesis.  Returns the bitmask and the new
cursor. -/
def gsmi_parse_memories_string (table : List (List Char × Nat)) (unknown : Nat)
    (src : List Char) : Nat × List Char :=
  let s := skipChar ',' src
  let s := skipChar '(' s
  let r := memListLoop table unknown (src.length + 1) s 0
  (r.1, skipChar ')' r.2)

/-- `gsm_sim_state_t`: the SIM states written by `gsmi_parse_cpin`. -/
inductive SimState
  | READY
  | NOT_READY
  | NOT_INSERTED
  | PIN
  | PUK
deriving DecidableEq, Repr

/-- `gsmi_parse_cpin`: skip 7 bytes when the line starts with `+`, then
match the body with `strncmp` against the five literals in priority order
(note the source compares `"NOT INSERTED"` over 14 bytes although the
literal has 12 characters), defaulting to `NOT_READY`.  Returns the new SIM
state, the number of `gsmi_get_sim_info` calls made, and whether the CPIN
event was sent. -/
def gsmi_parse_cpin (str : List Char) (send_evt : Bool) : SimState × Nat × Bool :=
  let s := if str.head? = some '+' then str.drop 7 else str
  let st :=
    if strncmpEq s "READY".toList 5 then SimState.READY
    else if strncmpEq s "NOT READY".toList 9 then SimState.NOT_READY
    else if strncmpEq s "NOT INSERTED".toList 14 then SimState.NOT_INSERTED
    else if strncmpEq s "SIM PIN".toList 7 then SimState.PIN
    else if strncmpEq s "PIN PUK".toList 7 then SimState.PUK
    else SimState.NOT_READY
  (st, if st = SimState.READY then 1 else 0, send_evt)

/-- `gsm_sms_status_t` (the values used by `gsmi_parse_sms_status`). -/
inductive SmsStatus
  | ALL
  | UNREAD
  | READ
  | UNSENT
  | SENT
deriving DecidableEq, Repr

/-- `gsmi_parse_sms_status`: copy one quoted token into a `char t[11]`
buffer (via `gsmi_parse_string` with `trim` set), exact-match it against the
four status literals, and on a match write the caller's status variable and
report success; otherwise leave it unchanged and report failure.  Returns
the new cursor, the (possibly updated) status variable, and the result
flag. -/
def gsmi_parse_sms_status (src : List Char) (stat : SmsStatus) :
    List Char × SmsStatus × Bool :=
  let r := gsmi_parse_string src true 11 true
  let s :=
    if r.2 = "REC UNREAD".toList then SmsStatus.UNREAD
    else if r.2 = "REC READ".toList then SmsStatus.READ
    else if r.2 = "STO UNSENT".toList then SmsStatus.UNSENT
    else if r.2 = "REC SENT".toList then SmsStatus.SENT
    else SmsStatus.ALL
  if s = SmsStatus.ALL then (r.1, stat, false) else (r.1, s, true)

/-- One entry of the operator-scan output array (`gsm_operator_t` as used by
`gsmi_parse_cops_scan`): numeric status and id accumulated digit by digit in
native integers, the two name buffers as their current NUL-terminated
content (bytes as `Nat`). -/
structure GsmOperator where
  stat : Int
  long_name : List Nat
  short_name : List Nat
  num : Int
deriving DecidableEq, Repr

instance : Inhabited GsmOperator :=
  ⟨⟨0, [], [], 0⟩⟩

/-- The static bit-field state of `gsmi_parse_cops_scan`: bracket-open flag,
comma-comma-detected latch, the 2-bit term number (`uint8_t tn:2`, hence
`Fin 4`), the `uint8_t` term position and previous character. -/
structure CopsScan where
  bo : Bool
  ccd : Bool
  tn : Fin 4
  tp : Nat
  ch_prev : Nat
deriving DecidableEq, Repr

/-- The `gsm.msg->msg.cops_scan` fields touched by the scanner: the output
operator array, the current index `opsi`, the capacity `opsl`, and the
externally visible count `*opf` (`none` models a NULL pointer). -/
structure CopsMsg where
  ops : List GsmOperator
  opsi : Nat
  opsl : Nat
  opf : Option Nat
deriving DecidableEq, Repr

/-- The `switch (u.f.tn)` of `gsmi_parse_cops_scan` writing one data
character into the current operator entry; `longCap`/`shortCap` are
`sizeof(long_name)`/`sizeof(short_name)`.  Returns the updated entry and the
updated `uint8_t` term position. -/
def copsWriteTerm (longCap shortCap : Nat) (ch : Nat) (u : CopsScan) (op : GsmOperator) :
    GsmOperator × Nat :=
  match (u.tn : Nat) with
  | 0 => ({ op with stat := 10 * op.stat + ((ch : Int) - 48) }, u.tp)
  | 1 =>
    if u.tp < longCap - 1 then
      ({ op with long_name := op.long_name.take u.tp ++ [ch] }, (u.tp + 1) % 256)
    else (op, u.tp)
  | 2 =>
    if u.tp < shortCap - 1 then
      ({ op with short_name := op.short_name.take u.tp ++ [ch] }, (u.tp + 1) % 256)
    else (op, u.tp)
  | _ => ({ op with num := 10 * op.num + ((ch : Int) - 48) }, u.tp)

/-- `gsmi_parse_cops_scan`: one step of the streaming operator-scan state
machine on character `ch` (a byte).  `reset` clears the static state;
otherwise, data is ignored after two commas in a row or once the output
array is full; inside a bracket, `)` closes the record and bumps the index
and the reported count, `,` moves to the next 2-bit term, a quote is
skipped, and any other byte is written into the current term; outside a
bracket, `(` opens a record and a comma following a comma sets the `ccd`
latch. -/
def gsmi_parse_cops_scan (longCap shortCap : Nat) (ch : Nat) (reset : Bool)
    (u : CopsScan) (m : CopsMsg) : CopsScan × CopsMsg :=
  if reset then (⟨false, false, 0, 0, 0⟩, m)
  else if u.ccd = true ∨ m.opsl ≤ m.opsi then (u, m)
  else
    let r :=
      if u.bo then
        if ch = 41 then
          let m1 : CopsMsg := { m with opsi := m.opsi + 1 }
          ({ u with bo := false, tn := 0, tp := 0 },
           { m1 with opf := if m1.opf.isSome then some m1.opsi else none })
        else if ch = 44 then
          ({ u with tn := u.tn + 1, tp := 0 }, m)
        else if ch ≠ 34 then
          let w := copsWriteTerm longCap shortCap ch u (m.ops.getD m.opsi default)
          ({ u with tp := w.2 }, { m with ops := m.ops.set m.opsi w.1 })
        else (u, m)
      else
        if ch = 40 then ({ u with bo := true }, m)
        else if ch = 44 ∧ u.ch_prev = 44 then ({ u with ccd := true }, m)
        else (u, m)
    ({ r.1 with ch_prev := ch % 256 }, r.2)

/-- Feed a list of bytes to the operator scanner (no reset), with buffer
sizes 20, starting from the given state. -/
def copsFeed (l : List Nat) (u : CopsScan) (m : CopsMsg) : CopsScan × CopsMsg :=
  l.foldl (fun st ch => gsmi_parse_cops_scan 20 20 ch false st.1 st.2) (u, m)

/-- The scanner state right after a reset call. -/
def copsReset : CopsScan :=
  ⟨false, false, 0, 0, 0⟩

/-- A one-slot output message: empty zeroed entry, index 0, capacity 1,
NULL count pointer. -/
def msgA : CopsMsg :=
  ⟨[⟨0, [], [], 0⟩], 0, 1, none⟩

/-- The condition of the first `GSM_ASSERT` in `gsm_sms_send`:
`num != NULL`.  Pointers are modelled as `Option`s. -/
def gsm_sms_send_assert1 (num : Option (List Char)) : Bool :=
  num.isSome

/-- The condition of the second `GSM_ASSERT` in `gsm_sms_send`:
`num != NULL && strlen(text) <= 160`, with C short-circuit evaluation.
`none` as a result models reaching `strlen(NULL)` (an unguarded NULL
dereference); `some b` is the value the condition evaluates to. -/
def gsm_sms_send_assert2 (num text : Option (List Char)) : Option Bool :=
  if num.isSome then text.map (fun t => decide (t.length ≤ 160)) else some false

/-! ## Claims -/

/-- C10: in `gsm_sms_send` the input-validation assertions never reject a
call because `text` is NULL: with `num` non-NULL the first assertion
condition holds, the second reaches `strlen(text)` on a NULL `text`
unguarded (modelled as `none`), and a rejection (`some false`) arises only
from a NULL `num`. -/
theorem c10_sms_send_null_text (num : List Char) :
    gsm_sms_send_assert1 (some num) = true ∧
    gsm_sms_send_assert2 (some num) none = none ∧
    (∀ text, gsm_sms_send_assert2 none text = some false) := by
  refine ⟨rfl, rfl, fun text => ?_⟩
  simp [gsm_sms_send_assert2]

/-- C3: once the operator scanner's stop latch is set (two commas in a row
seen outside a record) or the output array is full, every further character
fed without a reset leaves the scanner state, the output array and the
reported count unchanged; and a comma fed outside a record right after a
previous comma does set the latch. -/
theorem c3_cops_freeze :
    (∀ lc sc ch u m, u.ccd = true ∨ m.opsl ≤ m.opsi →
      gsmi_parse_cops_scan lc sc ch false u m = (u, m)) ∧
    (∀ lc sc u m, u.bo = false → u.ccd = false → m.opsi < m.opsl → u.ch_prev = 44 →
      (gsmi_parse_cops_scan lc sc 44 false u m).1.ccd = true ∧
      (gsmi_parse_cops_scan lc sc 44 false u m).2 = m) := by
  constructor
  · intro lc sc ch u m h
    simp [gsmi_parse_cops_scan, h]
  · intro lc sc u m hbo hccd hlt hprev
    have hfr : ¬(u.ccd = true ∨ m.opsl ≤ m.opsi) := by
      simp [hccd]; omega
    simp [gsmi_parse_cops_scan, hfr, hbo, hprev]

/-- C3 witness: a latched state absorbs a character unchanged. -/
theorem c3_cops_freeze_witness :
    gsmi_parse_cops_scan 20 20 50 false ⟨false, true, 0, 0, 0⟩ msgA
      = (⟨false, true, 0, 0, 0⟩, msgA) :=
  c3_cops_freeze.1 20 20 50 ⟨false, true, 0, 0, 0⟩ msgA (Or.inl rfl)

/-- C1 counterexample: after a reset and the bytes `(,,,` the scanner is
inside a record with field index 3, but one more comma does not leave the
state unchanged: the 2-bit term counter wraps back to field 0. -/
theorem c1_cops_comma_wraps_counterexample :
    (copsFeed [40, 44, 44, 44] copsReset msgA).1.bo = true ∧
    (copsFeed [40, 44, 44, 44] copsReset msgA).1.tn = 3 ∧
    (copsFeed [40, 44, 44, 44, 44] copsReset msgA).1.tn = 0 := by
  decide

/-- C1 amended: the field index always stays in 0..3, but a comma inside a
record does not saturate at field 3: it always increments the 2-bit term
counter modulo 4 (and clears the term position), so at field 3 a further
comma wraps the index to 0 and redirects subsequent characters to the
status field. -/
theorem c1_cops_field_index_amended :
    (∀ lc sc ch r u m, ((gsmi_parse_cops_scan lc sc ch r u m).1.tn : Nat) ≤ 3) ∧
    (∀ lc sc u m, u.ccd = false → m.opsi < m.opsl → u.bo = true →
      (gsmi_parse_cops_scan lc sc 44 false u m).1.tn = u.tn + 1 ∧
      (gsmi_parse_cops_scan lc sc 44 false u m).1.tp = 0) := by
  constructor
  · intro lc sc ch r u m
    have h := ((gsmi_parse_cops_scan lc sc ch r u m).1.tn).isLt
    omega
  · intro lc sc u m hccd hlt hbo
    have hfr : ¬(u.ccd = true ∨ m.opsl ≤ m.opsi) := by
      simp [hccd]; omega
    simp [gsmi_parse_cops_scan, hfr, hbo]

/-- C1 witness: at field 3 inside a record, a comma wraps the index to 0
and clears the term position. -/
theorem c1_cops_field_index_witness :
    (gsmi_parse_cops_scan 20 20 44 false ⟨true, false, 3, 5, 48⟩ msgA).1.tn = 0 ∧
    (gsmi_parse_cops_scan 20 20 44 false ⟨true, false, 3, 5, 48⟩ msgA).1.tp = 0 := by
  have h := c1_cops_field_index_amended.2 20 20 ⟨true, false, 3, 5, 48⟩ msgA rfl (by decide) rfl
  exact ⟨by rw [h.1]; decide, h.2⟩

/-- C2 counterexample: `"NOT INSERTEDX"` has `"NOT INSERTED"` as a prefix
(and matches none of the earlier literals as a prefix), so under the
claimed prefix-comparison priority order the state would become
NOT_INSERTED; the code instead compares 14 bytes — the literal plus its
terminator — and falls through to NOT_READY. -/
theorem c2_cpin_not_inserted_counterexample :
    "NOT INSERTED".toList.isPrefixOf "NOT INSERTEDX".toList = true ∧
    (gsmi_parse_cpin "NOT INSERTEDX".toList false).1 = SimState.NOT_READY ∧
    SimState.NOT_READY ≠ SimState.NOT_INSERTED := by
  decide

/-- C2 amended: the body is matched in priority order by prefix comparison
for `READY`, `NOT READY`, `SIM PIN` and `PIN PUK`, but `NOT INSERTED` only
by exact comparison (the `strncmp` length 14 exceeds the literal's 12
characters, so the terminator participates); every body matching none of
the five comparisons yields NOT_READY; a body with prefix `READY` yields
state READY with the fetch-SIM-info action invoked exactly once, and a body
with prefix `SIM PIN` yields the PIN-required state without invoking it. -/
theorem c2_cpin_match_amended :
    (∀ t : List Char, gsmi_parse_cpin ("READY".toList ++ t) false = (SimState.READY, 1, false)) ∧
    (∀ t : List Char, gsmi_parse_cpin ("SIM PIN".toList ++ t) false = (SimState.PIN, 0, false)) ∧
    (∀ t : List Char,
      gsmi_parse_cpin ("NOT READY".toList ++ t) false = (SimState.NOT_READY, 0, false)) ∧
    (∀ t : List Char, gsmi_parse_cpin ("PIN PUK".toList ++ t) false = (SimState.PUK, 0, false)) ∧
    gsmi_parse_cpin "NOT INSERTED".toList false = (SimState.NOT_INSERTED, 0, false) ∧
    (∀ c t, (gsmi_parse_cpin ("NOT INSERTED".toList ++ c :: t) false).1 = SimState.NOT_READY) ∧
    (∀ s : List Char, s.head? ≠ some '+' →
      strncmpEq s "READY".toList 5 = false →
      strncmpEq s "NOT READY".toList 9 = false →
      strncmpEq s "NOT INSERTED".toList 14 = false →
      strncmpEq s "SIM PIN".toList 7 = false →
      strncmpEq s "PIN PUK".toList 7 = false →
      gsmi_parse_cpin s false = (SimState.NOT_READY, 0, false)) := by
  refine ⟨fun t => rfl, fun t => rfl, fun t => rfl, fun t => rfl, by decide, fun c t => rfl,
    fun s hplus h1 h2 h3 h4 h5 => ?_⟩
  have h1' : strncmpEq s ['R', 'E', 'A', 'D', 'Y'] 5 = false := h1
  have h2' : strncmpEq s ['N', 'O', 'T', ' ', 'R', 'E', 'A', 'D', 'Y'] 9 = false := h2
  have h3' : strncmpEq s ['N', 'O', 'T', ' ', 'I', 'N', 'S', 'E', 'R', 'T', 'E', 'D'] 14 = false := h3
  have h4' : strncmpEq s ['S', 'I', 'M', ' ', 'P', 'I', 'N'] 7 = false := h4
  have h5' : strncmpEq s ['P', 'I', 'N', ' ', 'P', 'U', 'K'] 7 = false := h5
  simp [gsmi_parse_cpin, hplus, h1', h2', h3', h4', h5']

/-- C2 witness: the exact body `READY` reaches state READY with one
fetch-SIM-info call, and the body `GARBAGE` (matching nothing) falls back
to NOT_READY without a fetch. -/
theorem c2_cpin_match_witness :
    gsmi_parse_cpin "READY".toList false = (SimState.READY, 1, false) ∧
    gsmi_parse_cpin "GARBAGE".toList false = (SimState.NOT_READY, 0, false) := by
  refine ⟨by simpa using c2_cpin_match_amended.1 [], ?_⟩
  exact c2_cpin_match_amended.2.2.2.2.2.2 "GARBAGE".toList (by decide) (by decide) (by decide)
    (by decide) (by decide) (by decide)

/-- `i32` is the identity on values already in `int32_t` range. -/
theorem i32_eq_self (x : Int) (h1 : -2 ^ 31 ≤ x) (h2 : x < 2 ^ 31) : i32 x = x := by
  unfold i32
  have e1 : (2 : Int) ^ 31 = 2147483648 := by norm_num
  have e2 : (2 : Int) ^ 32 = 4294967296 := by norm_num
  rw [e1, e2] at *
  omega

/-- Appending digits never decreases the accumulated value. -/
theorem le_digitsValFrom (ds : List Char) (acc : Nat) : acc ≤ digitsValFrom acc ds := by
  induction ds generalizing acc with
  | nil => simp [digitsValFrom]
  | cons c cs ih =>
    have h := ih (acc * 10 + GSM_CHARTONUM c)
    simp only [digitsValFrom, List.foldl_cons] at *
    omega

/-- `skipChar` does not move past a non-matching character. -/
theorem skipChar_cons_ne (c a : Char) (l : List Char) (h : a ≠ c) :
    skipChar c (a :: l) = a :: l := by
  simp [skipChar, h]

/-- `skipChar` consumes a matching character. -/
theorem skipChar_cons_eq (c : Char) (l : List Char) : skipChar c (c :: l) = l := by
  simp [skipChar]

/-- A decimal digit is none of the delimiter characters skipped by
`gsmi_parse_number`. -/
theorem isnum_facts (c : Char) (h : GSM_CHARISNUM c = true) :
    c ≠ '"' ∧ c ≠ ',' ∧ c ≠ '-' := by
  refine ⟨?_, ?_, ?_⟩ <;> rintro rfl <;> exact absurd h (by decide)

/-- The digit loop of `gsmi_parse_number` computes the mathematical value of
the digit string and stops at the first non-digit, provided the value stays
below `2 ^ 31` (so the `int32_t` accumulation never wraps). -/
theorem parseDigits_spec (ds rest : List Char) (acc : Nat)
    (hd : ∀ c ∈ ds, GSM_CHARISNUM c = true)
    (hrest : ∀ c, rest.head? = some c → GSM_CHARISNUM c = false)
    (hlt : digitsValFrom acc ds < 2 ^ 31) :
    parseDigits (ds ++ rest) (acc : Int) = ((digitsValFrom acc ds : Int), rest) := by
  induction ds generalizing acc with
  | nil =>
    cases rest with
    | nil => simp [parseDigits, digitsValFrom]
    | cons c r =>
      have hc := hrest c rfl
      simp [parseDigits, digitsValFrom, hc]
  | cons c cs ih =>
    have hc : GSM_CHARISNUM c = true := hd c (List.mem_cons_self _ _)
    have hmono := le_digitsValFrom cs (acc * 10 + GSM_CHARTONUM c)
    have hin : digitsValFrom (acc * 10 + GSM_CHARTONUM c) cs < 2 ^ 31 := by
      simpa [digitsValFrom, List.foldl_cons] using hlt
    have hcast : (acc : Int) * 10 + (GSM_CHARTONUM c : Int)
        = ((acc * 10 + GSM_CHARTONUM c : Nat) : Int) := by
      push_cast
      ring
    have hwrap : i32 ((acc : Int) * 10 + (GSM_CHARTONUM c : Int))
        = (acc : Int) * 10 + (GSM_CHARTONUM c : Int) := by
      apply i32_eq_self
      · have h0 : (0 : Int) ≤ (acc : Int) * 10 + (GSM_CHARTONUM c : Int) := by positivity
        omega
      · rw [hcast]
        exact_mod_cast lt_of_le_of_lt hmono hin
    have hrec := ih (acc * 10 + GSM_CHARTONUM c)
      (fun x hx => hd x (List.mem_cons_of_mem _ hx)) hin
    simp only [List.cons_append, parseDigits, hc, if_true, List.append_eq]
    rw [hwrap, hcast, hrec]
    rfl

/-- C4 counterexample: on the decimal string `2147483648` (which matches
`-?[0-9]+`) followed by a comma, the `int32_t` accumulation wraps and
`gsmi_parse_number` returns `-2147483648`, not the mathematically correct
value. -/
theorem c4_parse_number_overflow_counterexample :
    gsmi_parse_number "2147483648,x".toList = (-2147483648, "x".toList) ∧
    (-2147483648 : Int) ≠ 2147483648 := by
  decide

/-- C4 amended: for every string matching `-?[0-9]+` whose digit part has
value at most `2 ^ 31 - 1`, `gsmi_parse_number` on that string followed by a
comma returns the mathematically correct integer value and leaves the
cursor exactly one character past the trailing comma. -/
theorem c4_parse_number_amended (neg : Bool) (ds rest : List Char)
    (hne : ds ≠ []) (hd : ∀ c ∈ ds, GSM_CHARISNUM c = true)
    (hlt : digitsValFrom 0 ds < 2 ^ 31) :
    gsmi_parse_number ((if neg then '-' :: ds else ds) ++ ',' :: rest)
      = (if neg then -(digitsValFrom 0 ds : Int) else (digitsValFrom 0 ds : Int), rest) := by
  obtain ⟨c, cs, rfl⟩ : ∃ c cs, ds = c :: cs := by
    cases ds with
    | nil => exact absurd rfl hne
    | cons c cs => exact ⟨c, cs, rfl⟩
  have hc : GSM_CHARISNUM c = true := hd c (List.mem_cons_self _ _)
  obtain ⟨hq, hcm, hm⟩ := isnum_facts c hc
  have hspec := parseDigits_spec (c :: cs) (',' :: rest) 0 hd
    (fun x hx => by simp at hx; subst hx; decide) hlt
  simp only [List.cons_append, Nat.cast_zero] at hspec
  have e1 := skipChar_cons_ne '"' c (cs ++ ',' :: rest) hq
  have e2 := skipChar_cons_ne ',' c (cs ++ ',' :: rest) hcm
  have e3 := skipChar_cons_ne '-' c (cs ++ ',' :: rest) hm
  have e4 : (decide ((c :: (cs ++ ',' :: rest)).head? = some '-')) = false := by
    simp [hm]
  cases neg with
  | false =>
    simp only [Bool.false_eq_true, if_false, gsmi_parse_number, List.cons_append,
      e1, e2, e3, e4, hspec, skipChar_cons_eq]
  | true =>
    have f1 : skipChar '"' ('-' :: c :: (cs ++ ',' :: rest)) = '-' :: c :: (cs ++ ',' :: rest) :=
      skipChar_cons_ne _ _ _ (by decide)
    have f2 : skipChar ',' ('-' :: c :: (cs ++ ',' :: rest)) = '-' :: c :: (cs ++ ',' :: rest) :=
      skipChar_cons_ne _ _ _ (by decide)
    have f4 : (decide ((('-') :: c :: (cs ++ ',' :: rest)).head? = some '-')) = true := by
      simp
    simp only [if_true, gsmi_parse_number, List.cons_append, f1, f2, f4,
      skipChar_cons_eq, hspec]
    have hb1 : -2 ^ 31 ≤ -(digitsValFrom 0 (c :: cs) : Int) := by
      have hx : (digitsValFrom 0 (c :: cs) : Int) < 2 ^ 31 := by exact_mod_cast hlt
      omega
    have hb2 : -(digitsValFrom 0 (c :: cs) : Int) < 2 ^ 31 := by
      have hx : (0 : Int) ≤ (digitsValFrom 0 (c :: cs) : Int) := by positivity
      omega
    rw [i32_eq_self _ hb1 hb2]

/-- C4 witness: `123,` parses to `123` with the cursor past the comma. -/
theorem c4_parse_number_witness :
    gsmi_parse_number ("123".toList ++ ',' :: "x".toList) = (123, "x".toList) := by
  have e : ((digitsValFrom 0 "123".toList : Nat) : Int) = 123 := by decide
  have h := c4_parse_number_amended false "123".toList "x".toList (by decide) (by decide)
    (by decide)
  simpa [e] using h

/-- With `trim` set and a destination, the copy loop of `gsmi_parse_string`
consumes a quote-free field up to its closing quote-comma, copying only what
fits in the remaining capacity; the cursor ends one character past the
closing quote, on the comma. -/
theorem psg_trim (content : List Char) (cap i : Nat) (acc rest : List Char)
    (h : ∀ c ∈ content, c ≠ '"') :
    gsmi_parse_string_go true cap true (content ++ '"' :: ',' :: rest) i acc
      = (',' :: rest, acc ++ content.take (cap - i)) := by
  induction content generalizing i acc with
  | nil =>
    simp [gsmi_parse_string_go]
  | cons c cs ih =>
    have hc : c ≠ '"' := h c (List.mem_cons_self _ _)
    have hcs : ∀ x ∈ cs, x ≠ '"' := fun x hx => h x (List.mem_cons_of_mem _ hx)
    by_cases hi : i < cap
    · rw [List.cons_append]
      rw [show gsmi_parse_string_go true cap true (c :: (cs ++ '"' :: ',' :: rest)) i acc
          = gsmi_parse_string_go true cap true (cs ++ '"' :: ',' :: rest) (i + 1) (acc ++ [c]) from by
        simp [gsmi_parse_string_go, hc, hi]]
      rw [ih (i + 1) (acc ++ [c]) hcs]
      have hsub : cap - i = (cap - (i + 1)) + 1 := by omega
      rw [hsub, List.take_succ_cons]
      simp
    · rw [List.cons_append]
      rw [show gsmi_parse_string_go true cap true (c :: (cs ++ '"' :: ',' :: rest)) i acc
          = gsmi_parse_string_go true cap true (cs ++ '"' :: ',' :: rest) i acc from by
        simp [gsmi_parse_string_go, hc, hi]]
      rw [ih i acc hcs]
      have hz : cap - i = 0 := by omega
      simp [hz]

/-- C8 counterexample: on `"hello",rest` with destination capacity 6 (and
`trim` set) `gsmi_parse_string` leaves the cursor at `,rest` — one character
past the closing quote, before the trailing comma — not at `rest` as the
claim states. -/
theorem c8_parse_string_cursor_counterexample :
    (gsmi_parse_string "\"hello\",rest".toList true 6 true).1 = ",rest".toList ∧
    ",rest".toList ≠ "rest".toList := by
  decide

/-- C8 amended: on `"hello",rest` with destination capacity at least 6 the
written string is `hello`, and with capacity 3 and `trim` set it is `he`
with the whole source field consumed; in both cases the cursor lands at
`,rest` (just before the trailing comma), not at `rest`. -/
theorem c8_parse_string_amended (n : Nat) (hn : 6 ≤ n) :
    gsmi_parse_string "\"hello\",rest".toList true n true = (",rest".toList, "hello".toList) ∧
    gsmi_parse_string "\"hello\",rest".toList true 3 true = (",rest".toList, "he".toList) := by
  constructor
  · show gsmi_parse_string_go true (n - 1) true
      ("hello".toList ++ '"' :: ',' :: "rest".toList) 0 [] = (",rest".toList, "hello".toList)
    rw [psg_trim _ _ _ _ _ (by decide)]
    have h5 : (n - 1 - 0) ≥ 5 := by omega
    rw [List.take_of_length_le (by simpa using h5)]
    rfl
  · decide

/-- C8 witness: the amended claim at capacity exactly 6. -/
theorem c8_parse_string_witness :
    gsmi_parse_string "\"hello\",rest".toList true 6 true = (",rest".toList, "hello".toList) ∧
    gsmi_parse_string "\"hello\",rest".toList true 3 true = (",rest".toList, "he".toList) :=
  c8_parse_string_amended 6 (by decide)

/-- C7: `gsmi_parse_sms_status` exact-matches the parsed quoted token (the
content copied into its 11-byte buffer) against the four literals
`REC UNREAD`, `REC READ`, `STO UNSENT`, `REC SENT`, mapping them to UNREAD,
READ, UNSENT, SENT with a success result; for every token matching none of
the four it reports failure and leaves the caller's status variable
unchanged. -/
theorem c7_parse_sms_status (src : List Char) (st0 : SmsStatus) :
    ((gsmi_parse_string src true 11 true).2 = "REC UNREAD".toList →
      gsmi_parse_sms_status src st0
        = ((gsmi_parse_string src true 11 true).1, SmsStatus.UNREAD, true)) ∧
    ((gsmi_parse_string src true 11 true).2 = "REC READ".toList →
      gsmi_parse_sms_status src st0
        = ((gsmi_parse_string src true 11 true).1, SmsStatus.READ, true)) ∧
    ((gsmi_parse_string src true 11 true).2 = "STO UNSENT".toList →
      gsmi_parse_sms_status src st0
        = ((gsmi_parse_string src true 11 true).1, SmsStatus.UNSENT, true)) ∧
    ((gsmi_parse_string src true 11 true).2 = "REC SENT".toList →
      gsmi_parse_sms_status src st0
        = ((gsmi_parse_string src true 11 true).1, SmsStatus.SENT, true)) ∧
    ((gsmi_parse_string src true 11 true).2 ≠ "REC UNREAD".toList →
      (gsmi_parse_string src true 11 true).2 ≠ "REC READ".toList →
      (gsmi_parse_string src true 11 true).2 ≠ "STO UNSENT".toList →
      (gsmi_parse_string src true 11 true).2 ≠ "REC SENT".toList →
      gsmi_parse_sms_status src st0 = ((gsmi_parse_string src true 11 true).1, st0, false)) := by
  refine ⟨fun h => by simp [gsmi_parse_sms_status, h], fun h => by simp [gsmi_parse_sms_status, h],
    fun h => by simp [gsmi_parse_sms_status, h], fun h => by simp [gsmi_parse_sms_status, h],
    fun h1 h2 h3 h4 => ?_⟩
  have h1' : ¬((gsmi_parse_string src true 11 true).2
      = ['R', 'E', 'C', ' ', 'U', 'N', 'R', 'E', 'A', 'D']) := h1
  have h2' : ¬((gsmi_parse_string src true 11 true).2
      = ['R', 'E', 'C', ' ', 'R', 'E', 'A', 'D']) := h2
  have h3' : ¬((gsmi_parse_string src true 11 true).2
      = ['S', 'T', 'O', ' ', 'U', 'N', 'S', 'E', 'N', 'T']) := h3
  have h4' : ¬((gsmi_parse_string src true 11 true).2
      = ['R', 'E', 'C', ' ', 'S', 'E', 'N', 'T']) := h4
  simp [gsmi_parse_sms_status, h1', h2', h3', h4']

/-- C7 witness: token `REC UNREAD` sets UNREAD with success; token
`GARBAGE"` (no match) fails and leaves the status variable at READ. -/
theorem c7_parse_sms_status_witness :
    gsmi_parse_sms_status "\"REC UNREAD\",x".toList SmsStatus.ALL
      = (",x".toList, SmsStatus.UNREAD, true) ∧
    gsmi_parse_sms_status "\"GARBAGE\"".toList SmsStatus.READ = ([], SmsStatus.READ, false) := by
  constructor
  · have h := (c7_parse_sms_status ("\"REC UNREAD\",x".toList) SmsStatus.ALL).1 (by decide)
    rw [h]
    rfl
  · have h := (c7_parse_sms_status ("\"GARBAGE\"".toList) SmsStatus.READ).2.2.2.2
      (by decide) (by decide) (by decide) (by decide)
    rw [h]
    rfl

/-- Unfolding of one iteration of the memory-list loop. -/
theorem memListLoop_step (table : List (List Char × Nat)) (u fuel : Nat) (s : List Char)
    (mask : Nat) :
    memListLoop table u (fuel + 1) s mask =
      (let r := gsmi_parse_memory table u s
       let mask1 := mask ||| ((1 <<< r.1) % 2 ^ 32)
       match r.2 with
       | [] => (mask1, [])
       | c :: cs =>
         if c = ')' then (mask1, c :: cs) else memListLoop table u fuel (c :: cs) mask1) :=
  rfl

/-- Unfolding of `gsmi_parse_memories_string` into its loop call. -/
theorem gpms_def (table : List (List Char × Nat)) (u : Nat) (src : List Char) :
    gsmi_parse_memories_string table u src
      = ((memListLoop table u (src.length + 1) (skipChar '(' (skipChar ',' src)) 0).1,
         skipChar ')' (memListLoop table u (src.length + 1) (skipChar '(' (skipChar ',' src)) 0).2) :=
  rfl

/-- C5 counterexample: against a table containing `("SM", 2)` (with the
unknown selector 0 here), on `"SM",rest` the selector is 2 but the cursor
stops at `,rest` — before the trailing comma — not at `rest` as the claim
states. -/
theorem c5_parse_memory_cursor_counterexample :
    gsmi_parse_memory [("SM".toList, 2)] 0 "\"SM\",rest".toList = (2, ",rest".toList) ∧
    ",rest".toList ≠ "rest".toList := by
  decide

/-- C5 amended: `gsmi_parse_memory` takes the first table entry in table
order whose name is a prefix of the input (not the longest such match),
advances past the matched name and one closing quote, and stops before any
trailing comma: on `"SM",rest` against `("SM", 2)` it yields selector 2
with cursor `,rest`; against the ordered table `("M", 0), ("ME", 1)` the
input `"ME",rest` matches `M` first, yielding selector 0 with the cursor
right after the `M`; when no entry matches, it returns the unknown selector
and still advances past one quoted token (cursor again at `,rest`). -/
theorem c5_parse_memory_amended :
    (∀ u : Nat, u ≠ 2 →
      gsmi_parse_memory [("SM".toList, 2)] u "\"SM\",rest".toList = (2, ",rest".toList)) ∧
    (∀ u : Nat, u ≠ 0 →
      gsmi_parse_memory [("M".toList, 0), ("ME".toList, 1)] u "\"ME\",rest".toList
        = (0, "E\",rest".toList)) ∧
    (∀ u : Nat,
      gsmi_parse_memory [("SM".toList, 2)] u "\"XX\",rest".toList = (u, ",rest".toList)) := by
  refine ⟨fun u hu => ?_, fun u hu => ?_, fun u => ?_⟩
  · have e : gsmi_parse_memory [("SM".toList, 2)] u ("\"SM\",rest".toList)
        = (2, skipChar '"' (if (2 : Nat) = u
            then (gsmi_parse_string ['"', ',', 'r', 'e', 's', 't'] false 0 true).1
            else ['"', ',', 'r', 'e', 's', 't'])) := rfl
    rw [e, if_neg (fun h => hu h.symm)]
    rfl
  · have e : gsmi_parse_memory [("M".toList, 0), ("ME".toList, 1)] u ("\"ME\",rest".toList)
        = (0, skipChar '"' (if (0 : Nat) = u
            then (gsmi_parse_string ['E', '"', ',', 'r', 'e', 's', 't'] false 0 true).1
            else ['E', '"', ',', 'r', 'e', 's', 't'])) := rfl
    rw [e, if_neg (fun h => hu h.symm)]
    rfl
  · have e : gsmi_parse_memory [("SM".toList, 2)] u ("\"XX\",rest".toList)
        = (u, skipChar '"' (if u = u
            then (gsmi_parse_string ['X', 'X', '"', ',', 'r', 'e', 's', 't'] false 0 true).1
            else ['X', 'X', '"', ',', 'r', 'e', 's', 't'])) := rfl
    rw [e, if_pos rfl]
    rfl

/-- C5 witness: the amended claim with unknown selector 5. -/
theorem c5_parse_memory_witness :
    gsmi_parse_memory [("SM".toList, 2)] 5 "\"SM\",rest".toList = (2, ",rest".toList) ∧
    gsmi_parse_memory [("M".toList, 0), ("ME".toList, 1)] 5 "\"ME\",rest".toList
      = (0, "E\",rest".toList) ∧
    gsmi_parse_memory [("SM".toList, 2)] 5 "\"XX\",rest".toList = (5, ",rest".toList) :=
  ⟨c5_parse_memory_amended.1 5 (by decide), c5_parse_memory_amended.2.1 5 (by decide),
   c5_parse_memory_amended.2.2 5⟩

/-- First `gsmi_parse_memory` call of the C6 list: matches `SM`. -/
theorem pm_sm (u : Nat) (hu : u ≠ 0) :
    gsmi_parse_memory [("SM".toList, 0), ("ME".toList, 1)] u "\"SM\",\"ME\")rest".toList
      = (0, ",\"ME\")rest".toList) := by
  have e : gsmi_parse_memory [("SM".toList, 0), ("ME".toList, 1)] u ("\"SM\",\"ME\")rest".toList)
      = (0, skipChar '"' (if (0 : Nat) = u
          then (gsmi_parse_string ['"', ',', '"', 'M', 'E', '"', ')', 'r', 'e', 's', 't']
            false 0 true).1
          else ['"', ',', '"', 'M', 'E', '"', ')', 'r', 'e', 's', 't'])) := rfl
  rw [e, if_neg (fun h => hu h.symm)]
  rfl

/-- Second `gsmi_parse_memory` call of the C6 list: matches `ME`. -/
theorem pm_me (u : Nat) (hu : u ≠ 1) :
    gsmi_parse_memory [("SM".toList, 0), ("ME".toList, 1)] u ",\"ME\")rest".toList
      = (1, ")rest".toList) := by
  have e : gsmi_parse_memory [("SM".toList, 0), ("ME".toList, 1)] u (",\"ME\")rest".toList)
      = (1, skipChar '"' (if (1 : Nat) = u
          then (gsmi_parse_string ['"', ')', 'r', 'e', 's', 't'] false 0 true).1
          else ['"', ')', 'r', 'e', 's', 't'])) := rfl
  rw [e, if_neg (fun h => hu h.symm)]
  rfl

/-- C6: `gsmi_parse_memories_string` parses the parenthesized list
`("SM","ME")rest` against a table with SM = 0 and ME = 1 by repeated
`gsmi_parse_memory` calls, OR-ing `1 << selector` into the bitmask: the
result is `0b11` with the cursor at `rest` (for any unknown-selector value
distinct from the two table selectors). -/
theorem c6_parse_memories_string (u : Nat) (h0 : u ≠ 0) (h1 : u ≠ 1) :
    gsmi_parse_memories_string [("SM".toList, 0), ("ME".toList, 1)] u
      "(\"SM\",\"ME\")rest".toList = (3, "rest".toList) := by
  have k1 := pm_sm u h0
  have k2 := pm_me u h1
  have t1 : memListLoop [("SM".toList, 0), ("ME".toList, 1)] u 16 ("\"SM\",\"ME\")rest".toList) 0
      = memListLoop [("SM".toList, 0), ("ME".toList, 1)] u 15 (",\"ME\")rest".toList)
          (0 ||| ((1 <<< 0) % 2 ^ 32)) := by
    rw [show (16 : Nat) = 15 + 1 from rfl, memListLoop_step, k1]
    rfl
  have t2 : memListLoop [("SM".toList, 0), ("ME".toList, 1)] u 15 (",\"ME\")rest".toList)
        (0 ||| ((1 <<< 0) % 2 ^ 32))
      = ((0 ||| ((1 <<< 0) % 2 ^ 32)) ||| ((1 <<< 1) % 2 ^ 32), ")rest".toList) := by
    rw [show (15 : Nat) = 14 + 1 from rfl, memListLoop_step, k2]
    rfl
  rw [gpms_def]
  rw [show skipChar '(' (skipChar ',' ("(\"SM\",\"ME\")rest".toList)) = "\"SM\",\"ME\")rest".toList
    from rfl]
  rw [show ("(\"SM\",\"ME\")rest".toList.length + 1) = 16 from by decide]
  rw [t1, t2]
  rfl

/-- C6 witness: the list parse with unknown selector 2. -/
theorem c6_parse_memories_string_witness :
    gsmi_parse_memories_string [("SM".toList, 0), ("ME".toList, 1)] 2
      "(\"SM\",\"ME\")rest".toList = (3, "rest".toList) :=
  c6_parse_memories_string 2 (by decide) (by decide)

/-- The single `gsmi_parse_memory` call made on the empty list `()rest`:
no table entry matches at `)`, so the unknown selector is returned and the
string skip consumes the rest of the input. -/
theorem pm_rparen (u : Nat) :
    gsmi_parse_memory [("SM".toList, 0), ("ME".toList, 1)] u ")rest".toList = (u, []) := by
  have e : gsmi_parse_memory [("SM".toList, 0), ("ME".toList, 1)] u (")rest".toList)
      = (u, skipChar '"' (if u = u
          then (gsmi_parse_string [')', 'r', 'e', 's', 't'] false 0 true).1
          else [')', 'r', 'e', 's', 't'])) := rfl
  rw [e, if_pos rfl]
  rfl

/-- C9: on the empty parenthesized list `()rest` (table SM = 0, ME = 1,
unknown selector `u < 32`), `gsmi_parse_memories_string` does not return
bitmask 0 with the cursor just past the `)`: its do-while loop calls
`gsmi_parse_memory` once, ORs the unknown selector's bit into the mask, and
the string skip consumes the `)` and all remaining input, leaving the
cursor at the end. -/
theorem c9_empty_memory_list (u : Nat) (hu : u < 32) :
    gsmi_parse_memories_string [("SM".toList, 0), ("ME".toList, 1)] u "()rest".toList
      = (2 ^ u, []) ∧ 2 ^ u ≠ 0 ∧ ([] : List Char) ≠ "rest".toList := by
  refine ⟨?_, by positivity, by decide⟩
  have k := pm_rparen u
  have t : memListLoop [("SM".toList, 0), ("ME".toList, 1)] u 7 (")rest".toList) 0
      = (0 ||| ((1 <<< u) % 2 ^ 32), []) := by
    rw [show (7 : Nat) = 6 + 1 from rfl, memListLoop_step, k]
  rw [gpms_def]
  rw [show skipChar '(' (skipChar ',' ("()rest".toList)) = ")rest".toList from rfl]
  rw [show ("()rest".toList.length + 1) = 7 from by decide]
  rw [t]
  have hm : (1 <<< u) % 2 ^ 32 = 2 ^ u := by
    rw [Nat.one_shiftLeft]
    exact Nat.mod_eq_of_lt (Nat.pow_lt_pow_right (by decide) hu)
  rw [hm]
  simp [skipChar]

/-- C9 witness: unknown selector 5 contributes bit 5, and the cursor ends
at the end of input, not at `rest`. -/
theorem c9_empty_memory_list_witness :
    gsmi_parse_memories_string [("SM".toList, 0), ("ME".toList, 1)] 5 "()rest".toList
      = (32, []) := by
  have h := (c9_empty_memory_list 5 (by decide)).1
  simpa using h
